import Mathlib

/-!
Verification development for the collaborative-sequence core of this
repository.  Two source files are embedded:

* `packages/runtime/sequence/src/sequence.ts` — the `SharedSegmentSequence`
  façade: op transformation of incoming sequenced messages, the history
  buffer (`messagesSinceMSNChange`), its garbage collection
  (`processMinSequenceNumberChanged`), local edit entry points
  (`removeRange`, `annotateRange`, `localRefToPos`,
  `resolveRemoteClientPosition`) and snapshot loading (`loadCore`).

* `packages/loader/container-loader/src/deltaManagerProxy.ts` — the
  `DeltaQueueProxy` pause/resume composition shim.

Pure functions are translated directly; the stateful parts are modelled by
explicit state passing (the proxy's two pause flags, the sequence's applied
log and history buffer).  Calls into packages that are not part of the two
source files (the merge-tree client) are either abstracted as function
parameters or, where a claim depends on their behaviour, modelled from the
specification and marked as such in their doc comments.
-/

namespace Fluid

/-! ### Delta queue proxy (deltaManagerProxy.ts) -/

/-- Commands the proxy issues to the wrapped `IDeltaQueue`. -/
inductive QueueCmd where
  | pause
  | resume
deriving DecidableEq

namespace DeltaQueueProxy

/-- The private mutable state of a `DeltaQueueProxy`: the `systemPaused` and
`localPaused` flags (both initialised to `false` in the source). -/
structure State where
  systemPaused : Bool
  localPaused : Bool
deriving DecidableEq

/-- `updateResume`: forwards `resume` to the underlying queue only when
neither flag is set, exactly as the source's
`if (!this.systemPaused && !this.localPaused) return this.queue.resume()`. -/
def updateResume (s : State) : List QueueCmd :=
  if !s.systemPaused && !s.localPaused then [QueueCmd.resume] else []

/-- `systemPause`: sets `systemPaused` and forwards `pause` unconditionally. -/
def systemPause (s : State) : State × List QueueCmd :=
  ({ s with systemPaused := true }, [QueueCmd.pause])

/-- `pause`: sets `localPaused` and forwards `pause` unconditionally. -/
def pause (s : State) : State × List QueueCmd :=
  ({ s with localPaused := true }, [QueueCmd.pause])

/-- `systemResume`: clears `systemPaused`, then runs `updateResume` on the
updated state. -/
def systemResume (s : State) : State × List QueueCmd :=
  let s2 : State := { s with systemPaused := false }
  (s2, updateResume s2)

/-- `resume`: clears `localPaused`, then runs `updateResume` on the updated
state. -/
def resume (s : State) : State × List QueueCmd :=
  let s2 : State := { s with localPaused := false }
  (s2, updateResume s2)

/-- The four public pause/resume entry points of the proxy. -/
inductive Call where
  | systemPause
  | pause
  | systemResume
  | resume
deriving DecidableEq

/-- Dispatch one public call on the proxy state, returning the new state and
the commands forwarded to the underlying queue. -/
def step (s : State) (c : Call) : State × List QueueCmd :=
  match c with
  | Call.systemPause => systemPause s
  | Call.pause => pause s
  | Call.systemResume => systemResume s
  | Call.resume => resume s

/-- Run a sequence of calls, recording after each call the proxy state it
produced and the commands it forwarded to the underlying queue. -/
def runTrace (s : State) : List Call → List (State × List QueueCmd)
  | [] => []
  | c :: cs =>
    let r := step s c
    r :: runTrace r.1 cs

/-- Total number of `resume` commands forwarded to the underlying queue over
a trace. -/
def resumeCount (tr : List (State × List QueueCmd)) : Nat :=
  (tr.map (fun r => r.2.count QueueCmd.resume)).sum

end DeltaQueueProxy

/-! ### Merge-tree ops and delta events (sequence.ts data model) -/

/-- An opaque property value. -/
abbrev Value := Int

/-- A property bag as produced by `createOpsFromDelta`: each key maps either
to a value or to JavaScript `null` (modelled as `none`). -/
abbrev PropSet := List (String × Option Value)

/-- A merge-tree segment as seen by `createOpsFromDelta`: its cached length,
its property bag (`undefined` keys simply absent), and an opaque
`toJSONObject()` payload. -/
structure Segment where
  cachedLength : Int
  properties : List (String × Value)
  jsonSpec : Nat
deriving DecidableEq

namespace MergeTree

/-- The tagged op variants of the wire `IMergeTreeOp` type. -/
inductive IMergeTreeOp where
  | insert (pos1 : Int) (seg : Nat)
  | remove (pos1 pos2 : Int)
  | annotate (pos1 pos2 : Int) (props : PropSet)
  | group (ops : List IMergeTreeOp)

instance : Inhabited IMergeTreeOp := ⟨IMergeTreeOp.group []⟩

/-- Modelled from the spec: `MergeTree.createAnnotateRangeOp` (the merge-tree
package is not among the excerpted sources) builds the
`Annotate{startPos, endPos, propertyDeltas}` op variant of §3; the
`combiningOp` argument is passed as `undefined` at the one call site and is
omitted. -/
def createAnnotateRangeOp (start end_ : Int) (props : PropSet) : IMergeTreeOp :=
  IMergeTreeOp.annotate start end_ props

/-- Modelled from the spec: `MergeTree.createInsertOp` builds the
`Insert{position, payload}` op variant of §3. -/
def createInsertOp (pos : Int) (segSpec : Nat) : IMergeTreeOp :=
  IMergeTreeOp.insert pos segSpec

/-- Modelled from the spec: `MergeTree.createRemoveRangeOp` builds the
`Remove{startPos, endPos}` op variant of §3. -/
def createRemoveRangeOp (start end_ : Int) : IMergeTreeOp :=
  IMergeTreeOp.remove start end_

/-- Modelled from the spec: `MergeTree.createGroupOp` builds the
`Group{ops}` op variant of §3 from the given ops. -/
def createGroupOp (ops : List IMergeTreeOp) : IMergeTreeOp :=
  IMergeTreeOp.group ops

/-- Modelled from the spec: `MergeTree.matchProperties` decides whether two
property bags are identical ("identical resulting properties", §4.3): every
key present in either bag has the same value (or same absence) in both. -/
def matchProperties (a b : PropSet) : Bool :=
  (a.map Prod.fst ++ b.map Prod.fst).all (fun k => a.lookup k == b.lookup k)

/-- The delta kinds reported by the merge tree for one event. -/
inductive MergeTreeDeltaType where
  | INSERT
  | REMOVE
  | ANNOTATE
  | GROUP
deriving DecidableEq

end MergeTree

/-- One range of a `SequenceDeltaEvent`: the position of the affected
segment, the segment itself, and the property deltas applied to it. -/
structure DeltaRange where
  position : Int
  segment : Segment
  propertyDeltas : PropSet
deriving DecidableEq

/-- A `SequenceDeltaEvent` as consumed by `createOpsFromDelta`: the delta
kind and the ordered list of affected ranges. -/
structure SequenceDeltaEvent where
  deltaOperation : MergeTree.MergeTreeDeltaType
  ranges : List DeltaRange

namespace SharedSegmentSequence

open MergeTree

/-- The resulting properties computed for an annotate range inside
`createOpsFromDelta`: for each key of `r.propertyDeltas`, the segment's
current value for that key, or `null` when the segment has none
(`r.segment.properties[key] === undefined ? null : ...`). -/
def resultingProps (r : DeltaRange) : PropSet :=
  r.propertyDeltas.map (fun kv => (kv.1, r.segment.properties.lookup kv.1))

/-- One iteration of the loop body of `createOpsFromDelta` for an `ANNOTATE`
event: coalesce with the last op when it ends where this range starts and the
resulting properties match (`lastAnnotate.pos2 += r.segment.cachedLength`),
otherwise push a fresh annotate op. -/
def pushAnnotate (ops : List IMergeTreeOp) (r : DeltaRange) : List IMergeTreeOp :=
  let props := resultingProps r
  match ops.getLast? with
  | some (IMergeTreeOp.annotate p1 p2 lastProps) =>
    if p2 = r.position ∧ matchProperties lastProps props = true then
      ops.dropLast ++ [IMergeTreeOp.annotate p1 (p2 + r.segment.cachedLength) lastProps]
    else
      ops ++ [createAnnotateRangeOp r.position (r.position + r.segment.cachedLength) props]
  | _ =>
    ops ++ [createAnnotateRangeOp r.position (r.position + r.segment.cachedLength) props]

/-- One iteration of the loop body of `createOpsFromDelta` for a `REMOVE`
event: coalesce with the last op when it starts at this range's position
(`lastRem.pos2 += r.segment.cachedLength`), otherwise push a fresh remove
op. -/
def pushRemove (ops : List IMergeTreeOp) (r : DeltaRange) : List IMergeTreeOp :=
  match ops.getLast? with
  | some (IMergeTreeOp.remove p1 p2) =>
    if p1 = r.position then
      ops.dropLast ++ [IMergeTreeOp.remove p1 (p2 + r.segment.cachedLength)]
    else
      ops ++ [createRemoveRangeOp r.position (r.position + r.segment.cachedLength)]
  | _ =>
    ops ++ [createRemoveRangeOp r.position (r.position + r.segment.cachedLength)]

/-- `SharedSegmentSequence.createOpsFromDelta`: re-express the ranges of one
delta event as a list of wire ops, coalescing adjacent annotate ranges with
matching resulting properties and adjacent removes at the same position. -/
def createOpsFromDelta (event : SequenceDeltaEvent) : List IMergeTreeOp :=
  event.ranges.foldl
    (fun ops r =>
      match event.deltaOperation with
      | MergeTreeDeltaType.ANNOTATE => pushAnnotate ops r
      | MergeTreeDeltaType.INSERT =>
        ops ++ [createInsertOp r.position r.segment.jsonSpec]
      | MergeTreeDeltaType.REMOVE => pushRemove ops r
      | MergeTreeDeltaType.GROUP => ops)
    []

/-- A sequenced message as processed by `processMergeTreeMsg`: externally
assigned sequence number, the sender's reference sequence number, the
minimum-sequence-number watermark at send time, the sender's client id and
the op contents. -/
structure ISequencedDocumentMessage where
  sequenceNumber : Int
  referenceSequenceNumber : Int
  minimumSequenceNumber : Int
  clientId : String
  contents : IMergeTreeOp

instance : Inhabited ISequencedDocumentMessage :=
  ⟨{ sequenceNumber := 0, referenceSequenceNumber := 0, minimumSequenceNumber := 0,
     clientId := "", contents := default }⟩

/-- The state of a `SharedSegmentSequence` that `processMergeTreeMsg`
mutates: the log of messages handed to `this.client.applyMsg` (standing for
the merge-tree client's state) and the `messagesSinceMSNChange` history
buffer. -/
structure SeqState where
  applied : List ISequencedDocumentMessage
  messagesSinceMSNChange : List ISequencedDocumentMessage

/-- `processMinSequenceNumberChanged`: scan `messagesSinceMSNChange` from the
front for the first message with `sequenceNumber > minSeq` and, when any
messages precede it, drop exactly those (`slice(index)`). -/
def processMinSequenceNumberChanged
    (messagesSinceMSNChange : List ISequencedDocumentMessage) (minSeq : Int) :
    List ISequencedDocumentMessage :=
  let index := messagesSinceMSNChange.findIdx (fun m => decide (minSeq < m.sequenceNumber))
  if index ≠ 0 then messagesSinceMSNChange.drop index else messagesSinceMSNChange

/-- The ops captured by the temporary `"sequenceDelta"` listener
(`transfromOps` in the source) over the delta events the merge-tree client
emits while applying one message: the concatenation of
`createOpsFromDelta` over those events, in order. -/
def transformedOps (events : List SequenceDeltaEvent) : List IMergeTreeOp :=
  (events.map createOpsFromDelta).flatten

/-- The message pushed onto the history buffer by `processMergeTreeMsg`
(`stashMessage` in the source): the incoming message itself when it needs no
transformation, otherwise a deep-cloned copy whose
`referenceSequenceNumber` is replaced by `sequenceNumber - 1` and whose
`contents` are the captured ops — the single op when exactly one was
captured, a group op otherwise
(`ops.length !== 1 ? MergeTree.createGroupOp(...ops) : ops[0]`). -/
def stashOf (events : List SequenceDeltaEvent) (message : ISequencedDocumentMessage) :
    ISequencedDocumentMessage :=
  let needsTransformation := message.referenceSequenceNumber ≠ message.sequenceNumber - 1
  if needsTransformation then
    let ops := transformedOps events
    { message with
      referenceSequenceNumber := message.sequenceNumber - 1,
      contents := if ops.length ≠ 1 then createGroupOp ops else ops.headI }
  else
    message

/-- `processMergeTreeMsg`: apply the incoming message to the merge-tree
client (recorded on the `applied` log), push the stash message (the original
or its transformed clone) onto `messagesSinceMSNChange`, then garbage-collect
the buffer when its length exceeds 20 and the message at index 20 already has
`sequenceNumber < message.minimumSequenceNumber`.  The delta events the
client would emit while applying the message are passed in as `events`;
the temporary listener capturing them is attached only when the message
needs transformation, so the captured ops are used only in that case. -/
def processMergeTreeMsg (events : List SequenceDeltaEvent) (st : SeqState)
    (message : ISequencedDocumentMessage) : SeqState :=
  let stashMessage := stashOf events message
  let applied := st.applied ++ [message]
  let buf := st.messagesSinceMSNChange ++ [stashMessage]
  if 20 < buf.length ∧ (buf.getD 20 default).sequenceNumber < message.minimumSequenceNumber then
    { applied := applied,
      messagesSinceMSNChange := processMinSequenceNumberChanged buf message.minimumSequenceNumber }
  else
    { applied := applied, messagesSinceMSNChange := buf }

/-! ### Local edit entry points and position resolution -/

/-- Modelled from the spec: `MergeTree.Client.removeRangeLocal` is part of
the merge-tree package, which is not among the excerpted sources; per §4.2
`submitLocalOp` "optimistically mutates the Segment Store immediately and
returns a serializable Op (or none if the edit was a no-op, e.g., empty
range)".  An empty range is one with `start == end`. -/
def removeRangeLocal (start end_ : Int) : Option IMergeTreeOp :=
  if start = end_ then none else some (createRemoveRangeOp start end_)

/-- `removeRange`: ask the client for a local remove op and submit it only
when one was produced; the returned value is the op (or its absence) and the
second component records the messages submitted to the transport
(`submitSequenceMessage`). -/
def removeRange (start end_ : Int) : Option IMergeTreeOp × List IMergeTreeOp :=
  let removeOp := removeRangeLocal start end_
  match removeOp with
  | some op => (some op, [op])
  | none => (none, [])

/-- A `MergeTree.LocalReference` as consumed by `localRefToPos`: possibly a
segment it is anchored to, and an offset within it. -/
structure LocalReference where
  segment : Option Segment
  offset : Int

/-- `localRefToPos`: offset plus the segment's current position when the
reference still has a segment, `-1` otherwise.  The merge-tree client's
`getPosition` is abstracted as a function parameter. -/
def localRefToPos (getPosition : Segment → Int) (localRef : LocalReference) : Int :=
  match localRef.segment with
  | some seg => localRef.offset + getPosition seg
  | none => -1

/-- Modelled from the spec: `MergeTree.Client.resolveRemoteClientPosition`
is part of the merge-tree package, which is not among the excerpted sources;
per §4.2 it maps a foreign client's position into current local coordinates
using the sequence-number-tagged history (abstracted here as the `transform`
parameter) and "fails (returns a sentinel) if refSeq is older than the local
minimumSequenceNumber".  The sentinel is `-1`, the same out-of-band value
the façade uses for unresolvable local references. -/
def clientResolveRemoteClientPosition (minSeq : Int)
    (transform : Int → Int → String → Int)
    (remoteClientPosition remoteClientRefSeq : Int) (remoteClientId : String) : Int :=
  if remoteClientRefSeq < minSeq then -1
  else transform remoteClientPosition remoteClientRefSeq remoteClientId

/-- `resolveRemoteClientPosition`: the façade delegates directly to the
merge-tree client. -/
def resolveRemoteClientPosition (minSeq : Int)
    (transform : Int → Int → String → Int)
    (remoteClientPosition remoteClientRefSeq : Int) (remoteClientId : String) : Int :=
  clientResolveRemoteClientPosition minSeq transform
    remoteClientPosition remoteClientRefSeq remoteClientId

/-! ### Snapshot loading (loadCore / loadFinished) -/

/-- The observable state of the `loadedDeferred` readiness signal: still
pending, resolved, or rejected with a cause (every waiter on the promise
observes the settled state). -/
inductive DeferredState where
  | pending
  | resolved
  | rejected (error : String)
deriving DecidableEq

/-- The outcome of a `loadCore` run: the final state of the readiness signal
and any exception that escaped `loadCore` itself (rejecting the promise
`loadCore` returns rather than the readiness signal). -/
structure LoadOutcome where
  loaded : DeferredState
  escaped : Option String
deriving DecidableEq

/-- `loadFinished`: reject the readiness deferred with the error when one is
given, otherwise mark the sequence loaded and resolve it. -/
def loadFinished (error : Option String) : DeferredState :=
  match error with
  | some e => DeferredState.rejected e
  | none => DeferredState.resolved

/-- `loadCore`: read the `header` blob (awaited outside the `try` block —
a failure there escapes `loadCore` without touching the readiness signal),
then initialise the merge-tree snapshot loader inside `try`/`catch`,
finishing with `loadFinished()` on success and `loadFinished(error)` on any
caught failure.  The two awaited external reads are passed in as their
results. -/
def loadCore (headerRead : Except String (Option String))
    (initResult : Except String (List ISequencedDocumentMessage)) : LoadOutcome :=
  match headerRead with
  | Except.error e => { loaded := DeferredState.pending, escaped := some e }
  | Except.ok _ =>
    match initResult with
    | Except.ok _ => { loaded := loadFinished none, escaped := none }
    | Except.error e => { loaded := loadFinished (some e), escaped := none }

end SharedSegmentSequence

/-! ### Theorems -/

open DeltaQueueProxy in
/-- Every `resume` command a single proxy call forwards to the underlying
queue is forwarded from a post-call state in which both pause flags are
clear. -/
theorem step_resume_flags_clear (s : DeltaQueueProxy.State) (c : DeltaQueueProxy.Call)
    (h : QueueCmd.resume ∈ (DeltaQueueProxy.step s c).2) :
    (DeltaQueueProxy.step s c).1.systemPaused = false ∧
      (DeltaQueueProxy.step s c).1.localPaused = false := by
  cases c with
  | systemPause => simp [DeltaQueueProxy.step, DeltaQueueProxy.systemPause] at h
  | pause => simp [DeltaQueueProxy.step, DeltaQueueProxy.pause] at h
  | systemResume =>
    cases hsl : s.localPaused with
    | true =>
      exfalso
      simp [DeltaQueueProxy.step, DeltaQueueProxy.systemResume,
        DeltaQueueProxy.updateResume, hsl] at h
    | false =>
      simp [DeltaQueueProxy.step, DeltaQueueProxy.systemResume, hsl]
  | resume =>
    cases hsp : s.systemPaused with
    | true =>
      exfalso
      simp [DeltaQueueProxy.step, DeltaQueueProxy.resume,
        DeltaQueueProxy.updateResume, hsp] at h
    | false =>
      simp [DeltaQueueProxy.step, DeltaQueueProxy.resume, hsp]

open DeltaQueueProxy in
/-- Over any run of public calls, every step that forwards `resume` ends in a
state with both pause flags clear. -/
theorem runTrace_resume_flags_clear (calls : List DeltaQueueProxy.Call) :
    ∀ (s : DeltaQueueProxy.State) (r : DeltaQueueProxy.State × List QueueCmd),
      r ∈ DeltaQueueProxy.runTrace s calls → QueueCmd.resume ∈ r.2 →
      r.1.systemPaused = false ∧ r.1.localPaused = false := by
  induction calls with
  | nil => intro s r hr _; simp [DeltaQueueProxy.runTrace] at hr
  | cons c cs ih =>
    intro s r hr hres
    simp only [DeltaQueueProxy.runTrace, List.mem_cons] at hr
    cases hr with
    | inl h => subst h; exact step_resume_flags_clear s c hres
    | inr h => exact ih _ r h hres

open DeltaQueueProxy in
/-- C2: over every sequence of `systemPause`/`pause`/`systemResume`/`resume`
calls on a `DeltaQueueProxy`, the underlying queue's `resume()` is forwarded
only from states where both `systemPaused` and `localPaused` are false; a
`resume` (resp. `systemResume`) issued while the other caller's pause flag is
still set forwards nothing; and with both flags set, resuming from both
callers, in either order, forwards `resume` exactly once. -/
theorem C2_pause_composition :
    (∀ (s : DeltaQueueProxy.State) (calls : List DeltaQueueProxy.Call)
        (r : DeltaQueueProxy.State × List QueueCmd),
        r ∈ DeltaQueueProxy.runTrace s calls → QueueCmd.resume ∈ r.2 →
        r.1.systemPaused = false ∧ r.1.localPaused = false)
  ∧ (∀ s : DeltaQueueProxy.State, s.systemPaused = true →
        (DeltaQueueProxy.resume s).2 = [])
  ∧ (∀ s : DeltaQueueProxy.State, s.localPaused = true →
        (DeltaQueueProxy.systemResume s).2 = [])
  ∧ DeltaQueueProxy.resumeCount
      (DeltaQueueProxy.runTrace ⟨true, true⟩
        [DeltaQueueProxy.Call.systemResume, DeltaQueueProxy.Call.resume]) = 1
  ∧ DeltaQueueProxy.resumeCount
      (DeltaQueueProxy.runTrace ⟨true, true⟩
        [DeltaQueueProxy.Call.resume, DeltaQueueProxy.Call.systemResume]) = 1 := by
  refine ⟨fun s calls r hr hres => runTrace_resume_flags_clear calls s r hr hres,
    ?_, ?_, by decide, by decide⟩
  · intro s h
    simp [DeltaQueueProxy.resume, DeltaQueueProxy.updateResume, h]
  · intro s h
    simp [DeltaQueueProxy.systemResume, DeltaQueueProxy.updateResume, h]

open DeltaQueueProxy in
/-- Witness for C2: with both sides paused, the trace `systemResume` then
`resume` forwards its one `resume` from the all-clear state. -/
theorem C2_pause_composition_witness :
    (Prod.fst ((⟨false, false⟩ : DeltaQueueProxy.State), [QueueCmd.resume])).systemPaused = false
  ∧ (Prod.fst ((⟨false, false⟩ : DeltaQueueProxy.State), [QueueCmd.resume])).localPaused = false :=
  C2_pause_composition.1 ⟨true, true⟩
    [DeltaQueueProxy.Call.systemResume, DeltaQueueProxy.Call.resume]
    (⟨false, false⟩, [QueueCmd.resume]) (by decide) (by decide)

open SharedSegmentSequence in
/-- C5: `resolveRemoteClientPosition` with `refSeq ≥ minimumSequenceNumber`
succeeds, returning the history-transformed local position; with `refSeq`
below the watermark it deterministically returns the sentinel `-1`. -/
theorem C5_resolve_remote_gc_safety (minSeq : Int) (transform : Int → Int → String → Int)
    (pos refSeq : Int) (cid : String) :
    (minSeq ≤ refSeq →
      SharedSegmentSequence.resolveRemoteClientPosition minSeq transform pos refSeq cid
        = transform pos refSeq cid)
  ∧ (refSeq < minSeq →
      SharedSegmentSequence.resolveRemoteClientPosition minSeq transform pos refSeq cid
        = -1) := by
  constructor
  · intro h
    unfold SharedSegmentSequence.resolveRemoteClientPosition
      SharedSegmentSequence.clientResolveRemoteClientPosition
    rw [if_neg (not_lt.mpr h)]
  · intro h
    unfold SharedSegmentSequence.resolveRemoteClientPosition
      SharedSegmentSequence.clientResolveRemoteClientPosition
    rw [if_pos h]

open SharedSegmentSequence in
/-- Witness for C5 at a fresh watermark of 5: refSeq 7 succeeds, refSeq 2
fails with the sentinel. -/
theorem C5_resolve_remote_gc_safety_witness :
    SharedSegmentSequence.resolveRemoteClientPosition 5 (fun p _ _ => p + 1) 3 7 "c"
      = (fun p _ _ => p + 1) 3 7 "c"
  ∧ SharedSegmentSequence.resolveRemoteClientPosition 5 (fun p _ _ => p + 1) 3 2 "c"
      = -1 :=
  ⟨(C5_resolve_remote_gc_safety 5 (fun p _ _ => p + 1) 3 7 "c").1 (by decide),
   (C5_resolve_remote_gc_safety 5 (fun p _ _ => p + 1) 3 2 "c").2 (by decide)⟩

open SharedSegmentSequence in
/-- C6 counterexample: a failure of the `header` blob read — a snapshot load
failure — happens outside `loadCore`'s `try` block, so the readiness signal
is left pending (not rejected with the cause) and the error escapes
`loadCore`. -/
theorem C6_header_failure_counterexample :
    (SharedSegmentSequence.loadCore (Except.error "header blob unreadable")
        (Except.ok [])).loaded = SharedSegmentSequence.DeferredState.pending
  ∧ (SharedSegmentSequence.loadCore (Except.error "header blob unreadable")
        (Except.ok [])).loaded
      ≠ SharedSegmentSequence.DeferredState.rejected "header blob unreadable"
  ∧ (SharedSegmentSequence.loadCore (Except.error "header blob unreadable")
        (Except.ok [])).escaped = some "header blob unreadable" :=
  ⟨rfl, by decide, rfl⟩

open SharedSegmentSequence in
/-- C6 (amended): every failure raised inside `loadCore`'s `try` block —
initialising the merge-tree snapshot from the `content` subtree — rejects
the readiness signal with the underlying cause and does not escape the
host; a successful load resolves it. -/
theorem C6_content_failure_rejects (hdr : Option String)
    (initResult : Except String (List SharedSegmentSequence.ISequencedDocumentMessage)) :
    (∀ e, initResult = Except.error e →
      SharedSegmentSequence.loadCore (Except.ok hdr) initResult
        = ({ loaded := SharedSegmentSequence.DeferredState.rejected e, escaped := none } :
            SharedSegmentSequence.LoadOutcome))
  ∧ (∀ msgs, initResult = Except.ok msgs →
      SharedSegmentSequence.loadCore (Except.ok hdr) initResult
        = ({ loaded := SharedSegmentSequence.DeferredState.resolved, escaped := none } :
            SharedSegmentSequence.LoadOutcome)) := by
  constructor
  · intro e he; subst he; rfl
  · intro msgs hm; subst hm; rfl

open SharedSegmentSequence in
/-- Witness for C6 (amended): a corrupt `content` chunk rejects the
readiness signal with the cause. -/
theorem C6_content_failure_rejects_witness :
    SharedSegmentSequence.loadCore (Except.ok none) (Except.error "bad chunk")
      = ({ loaded := SharedSegmentSequence.DeferredState.rejected "bad chunk",
           escaped := none } : SharedSegmentSequence.LoadOutcome) :=
  (C6_content_failure_rejects none (Except.error "bad chunk")).1 "bad chunk" rfl

open SharedSegmentSequence in
/-- C7: `removeRange(start, end)` with `start == end` is a no-op — it
submits no message to the transport and returns the absence signal. -/
theorem C7_empty_remove_is_noop (start : Int) :
    SharedSegmentSequence.removeRange start start = (none, []) := by
  simp [SharedSegmentSequence.removeRange, SharedSegmentSequence.removeRangeLocal]

open SharedSegmentSequence in
/-- C10: `localRefToPos` returns offset plus the segment's current position
while the reference is anchored, and the sentinel `-1` once its segment is
unset. -/
theorem C10_localRefToPos_spec (getPosition : Segment → Int)
    (localRef : SharedSegmentSequence.LocalReference) :
    (∀ seg, localRef.segment = some seg →
      SharedSegmentSequence.localRefToPos getPosition localRef
        = localRef.offset + getPosition seg)
  ∧ (localRef.segment = none →
      SharedSegmentSequence.localRefToPos getPosition localRef = -1) := by
  constructor
  · intro seg h
    simp [SharedSegmentSequence.localRefToPos, h]
  · intro h
    simp [SharedSegmentSequence.localRefToPos, h]

open SharedSegmentSequence in
/-- Witness for C10 on a concrete anchored and a concrete unanchored
reference. -/
theorem C10_localRefToPos_spec_witness :
    SharedSegmentSequence.localRefToPos (fun _ => 10)
        { segment := some { cachedLength := 1, properties := [], jsonSpec := 0 },
          offset := 3 }
      = 3 + 10
  ∧ SharedSegmentSequence.localRefToPos (fun _ => 10) { segment := none, offset := 3 }
      = -1 :=
  ⟨(C10_localRefToPos_spec (fun _ => 10)
      { segment := some { cachedLength := 1, properties := [], jsonSpec := 0 },
        offset := 3 }).1 _ rfl,
   (C10_localRefToPos_spec (fun _ => 10) { segment := none, offset := 3 }).2 rfl⟩

open SharedSegmentSequence MergeTree in
/-- When the ops list ends in an annotate op that stops exactly where the
next annotate range starts and the resulting properties match, the loop body
of `createOpsFromDelta` extends that last op instead of pushing a new one. -/
theorem pushAnnotate_coalesce (ops : List IMergeTreeOp) (p1 p2 : Int)
    (lastProps : PropSet) (r : DeltaRange)
    (hlast : ops.getLast? = some (IMergeTreeOp.annotate p1 p2 lastProps))
    (hpos : p2 = r.position)
    (hmatch : MergeTree.matchProperties lastProps (SharedSegmentSequence.resultingProps r)
      = true) :
    SharedSegmentSequence.pushAnnotate ops r
      = ops.dropLast
          ++ [IMergeTreeOp.annotate p1 (p2 + r.segment.cachedLength) lastProps] := by
  unfold SharedSegmentSequence.pushAnnotate
  rw [hlast]
  exact if_pos ⟨hpos, hmatch⟩

open SharedSegmentSequence MergeTree in
/-- C8: two adjacent annotate deltas over contiguous ranges (the first one's
end position equals the second one's start) carrying identical resulting
properties are re-expressed by `createOpsFromDelta` as exactly one annotate
op spanning the combined range, instead of two. -/
theorem C8_annotate_coalescing (r1 r2 : DeltaRange)
    (hadj : r1.position + r1.segment.cachedLength = r2.position)
    (hprops : MergeTree.matchProperties (SharedSegmentSequence.resultingProps r1)
        (SharedSegmentSequence.resultingProps r2) = true) :
    SharedSegmentSequence.createOpsFromDelta
        { deltaOperation := MergeTree.MergeTreeDeltaType.ANNOTATE, ranges := [r1, r2] }
      = [IMergeTreeOp.annotate r1.position (r2.position + r2.segment.cachedLength)
          (SharedSegmentSequence.resultingProps r1)] := by
  have hstep : SharedSegmentSequence.createOpsFromDelta
      { deltaOperation := MergeTree.MergeTreeDeltaType.ANNOTATE, ranges := [r1, r2] }
      = SharedSegmentSequence.pushAnnotate (SharedSegmentSequence.pushAnnotate [] r1) r2 :=
    rfl
  have hpush1 : SharedSegmentSequence.pushAnnotate [] r1
      = [IMergeTreeOp.annotate r1.position (r1.position + r1.segment.cachedLength)
          (SharedSegmentSequence.resultingProps r1)] := rfl
  rw [hstep, hpush1,
    pushAnnotate_coalesce
      [IMergeTreeOp.annotate r1.position (r1.position + r1.segment.cachedLength)
        (SharedSegmentSequence.resultingProps r1)]
      r1.position (r1.position + r1.segment.cachedLength)
      (SharedSegmentSequence.resultingProps r1) r2 rfl hadj hprops]
  simp [hadj]

open SharedSegmentSequence MergeTree in
/-- Witness for C8: two contiguous single-segment annotate deltas with the
same resulting property bag produce one annotate op over the union range. -/
theorem C8_annotate_coalescing_witness :
    SharedSegmentSequence.createOpsFromDelta
        { deltaOperation := MergeTree.MergeTreeDeltaType.ANNOTATE,
          ranges :=
            [{ position := 0,
               segment := { cachedLength := 2, properties := [("b", 1)], jsonSpec := 0 },
               propertyDeltas := [("b", some 0)] },
             { position := 2,
               segment := { cachedLength := 3, properties := [("b", 1)], jsonSpec := 0 },
               propertyDeltas := [("b", some 5)] }] }
      = [IMergeTreeOp.annotate 0 (2 + 3)
          (SharedSegmentSequence.resultingProps
            { position := 0,
              segment := { cachedLength := 2, properties := [("b", 1)], jsonSpec := 0 },
              propertyDeltas := [("b", some 0)] })] :=
  C8_annotate_coalescing
    { position := 0,
      segment := { cachedLength := 2, properties := [("b", 1)], jsonSpec := 0 },
      propertyDeltas := [("b", some 0)] }
    { position := 2,
      segment := { cachedLength := 3, properties := [("b", 1)], jsonSpec := 0 },
      propertyDeltas := [("b", some 5)] }
    (by decide) (by decide)

open SharedSegmentSequence in
/-- Dropping up to the first index whose element satisfies `p` is the same as
dropping the longest prefix of elements failing `p`. -/
theorem drop_findIdx_eq_dropWhile {α : Type} (p : α → Bool) :
    ∀ l : List α, l.drop (l.findIdx p) = l.dropWhile (fun a => !p a)
  | [] => by simp
  | a :: t => by
    by_cases h : p a
    · simp [List.findIdx_cons, h]
    · have ih := drop_findIdx_eq_dropWhile p t
      simp [List.findIdx_cons, h, List.drop_succ_cons, ih]

open SharedSegmentSequence in
/-- `processMinSequenceNumberChanged` drops exactly the messages before the
first buffered message with `sequenceNumber > minSeq`: it equals a
`dropWhile` of the messages with `sequenceNumber ≤ minSeq`. -/
theorem processMin_eq_dropWhile
    (msgs : List SharedSegmentSequence.ISequencedDocumentMessage) (minSeq : Int) :
    SharedSegmentSequence.processMinSequenceNumberChanged msgs minSeq
      = msgs.dropWhile (fun m => decide (m.sequenceNumber ≤ minSeq)) := by
  have hfun : (fun m : SharedSegmentSequence.ISequencedDocumentMessage =>
        !decide (minSeq < m.sequenceNumber))
      = fun m => decide (m.sequenceNumber ≤ minSeq) := by
    funext m
    rw [← decide_not]
    exact decide_eq_decide.mpr not_lt
  have h := drop_findIdx_eq_dropWhile
    (fun m : SharedSegmentSequence.ISequencedDocumentMessage =>
      decide (minSeq < m.sequenceNumber)) msgs
  rw [hfun] at h
  show (let index := msgs.findIdx
          (fun m => decide (minSeq < m.sequenceNumber))
        if index ≠ 0 then msgs.drop index else msgs) = _
  by_cases h0 : msgs.findIdx
      (fun m => decide (minSeq < m.sequenceNumber)) = 0
  · show (if msgs.findIdx (fun m => decide (minSeq < m.sequenceNumber)) ≠ 0
        then msgs.drop (msgs.findIdx (fun m => decide (minSeq < m.sequenceNumber)))
        else msgs) = _
    rw [if_neg (not_not_intro h0), ← h, h0, List.drop_zero]
  · show (if msgs.findIdx (fun m => decide (minSeq < m.sequenceNumber)) ≠ 0
        then msgs.drop (msgs.findIdx (fun m => decide (minSeq < m.sequenceNumber)))
        else msgs) = _
    rw [if_pos h0]
    exact h

open SharedSegmentSequence in
/-- Every message surviving a `processMinSequenceNumberChanged` pass was in
the buffer before it. -/
theorem mem_of_mem_processMin
    (msgs : List SharedSegmentSequence.ISequencedDocumentMessage) (minSeq : Int)
    (m : SharedSegmentSequence.ISequencedDocumentMessage)
    (h : m ∈ SharedSegmentSequence.processMinSequenceNumberChanged msgs minSeq) :
    m ∈ msgs := by
  have hdef : SharedSegmentSequence.processMinSequenceNumberChanged msgs minSeq
      = if (msgs.findIdx fun x => decide (minSeq < x.sequenceNumber)) ≠ 0
        then msgs.drop (msgs.findIdx fun x => decide (minSeq < x.sequenceNumber))
        else msgs := rfl
  rw [hdef] at h
  split at h
  · exact List.mem_of_mem_drop h
  · exact h

open SharedSegmentSequence in
/-- On a buffer with strictly increasing sequence numbers, every message
surviving the `dropWhile (sequenceNumber ≤ minSeq)` pass has
`sequenceNumber > minSeq`. -/
theorem mem_dropWhile_lt (minSeq : Int) :
    ∀ msgs : List SharedSegmentSequence.ISequencedDocumentMessage,
      List.Pairwise (fun a b => a.sequenceNumber < b.sequenceNumber) msgs →
      ∀ m ∈ msgs.dropWhile (fun x => decide (x.sequenceNumber ≤ minSeq)),
        minSeq < m.sequenceNumber
  | [], _, m, hm => by simp at hm
  | a :: t, hp, m, hm => by
    rw [List.dropWhile_cons] at hm
    by_cases ha : a.sequenceNumber ≤ minSeq
    · rw [if_pos (by simpa using ha)] at hm
      exact mem_dropWhile_lt minSeq t hp.of_cons m hm
    · rw [if_neg (by simpa using ha)] at hm
      rcases List.mem_cons.mp hm with rfl | hmem
      · exact not_le.mp ha
      · exact lt_trans (not_le.mp ha) ((List.pairwise_cons.mp hp).1 m hmem)

open SharedSegmentSequence in
/-- The stash message keeps the incoming message's sequence number. -/
theorem stashOf_sequenceNumber (events : List SequenceDeltaEvent)
    (message : SharedSegmentSequence.ISequencedDocumentMessage) :
    (SharedSegmentSequence.stashOf events message).sequenceNumber
      = message.sequenceNumber := by
  by_cases h : message.referenceSequenceNumber = message.sequenceNumber - 1
  · simp [SharedSegmentSequence.stashOf, h]
  · simp [SharedSegmentSequence.stashOf, h]

open SharedSegmentSequence MergeTree in
/-- C1: `processMergeTreeMsg` appends to the history buffer (up to the
subsequent GC pass, which only drops a prefix) the stash entry: the message
itself, unchanged, when `referenceSequenceNumber = sequenceNumber - 1`;
otherwise a copy agreeing with the message on every field except
`referenceSequenceNumber`, which becomes `sequenceNumber - 1`, and
`contents`, which become the single captured op when exactly one delta op
was captured and a Group op of the captured ops otherwise. -/
theorem C1_history_buffer_append (events : List SequenceDeltaEvent)
    (st : SharedSegmentSequence.SeqState)
    (message : SharedSegmentSequence.ISequencedDocumentMessage) :
    (∃ k, (SharedSegmentSequence.processMergeTreeMsg events st message).messagesSinceMSNChange
        = (st.messagesSinceMSNChange
            ++ [SharedSegmentSequence.stashOf events message]).drop k)
  ∧ (message.referenceSequenceNumber = message.sequenceNumber - 1 →
      SharedSegmentSequence.stashOf events message = message)
  ∧ (message.referenceSequenceNumber ≠ message.sequenceNumber - 1 →
      (SharedSegmentSequence.stashOf events message).referenceSequenceNumber
          = message.sequenceNumber - 1
      ∧ (SharedSegmentSequence.stashOf events message).sequenceNumber
          = message.sequenceNumber
      ∧ (SharedSegmentSequence.stashOf events message).minimumSequenceNumber
          = message.minimumSequenceNumber
      ∧ (SharedSegmentSequence.stashOf events message).clientId = message.clientId
      ∧ (∀ o, SharedSegmentSequence.transformedOps events = [o] →
          (SharedSegmentSequence.stashOf events message).contents = o)
      ∧ ((SharedSegmentSequence.transformedOps events).length ≠ 1 →
          (SharedSegmentSequence.stashOf events message).contents
            = MergeTree.createGroupOp (SharedSegmentSequence.transformedOps events))) := by
  refine ⟨?_, ?_, ?_⟩
  · simp only [SharedSegmentSequence.processMergeTreeMsg]
    split
    · refine ⟨(st.messagesSinceMSNChange
          ++ [SharedSegmentSequence.stashOf events message]).findIdx
            (fun m => decide (message.minimumSequenceNumber < m.sequenceNumber)), ?_⟩
      show SharedSegmentSequence.processMinSequenceNumberChanged _ _ = _
      have hfun : (fun m : SharedSegmentSequence.ISequencedDocumentMessage =>
            decide (m.sequenceNumber ≤ message.minimumSequenceNumber))
          = fun m => !decide (message.minimumSequenceNumber < m.sequenceNumber) := by
        funext m
        rw [← decide_not]
        exact decide_eq_decide.mpr not_lt.symm
      rw [processMin_eq_dropWhile, hfun, ← drop_findIdx_eq_dropWhile
        (fun m : SharedSegmentSequence.ISequencedDocumentMessage =>
          decide (message.minimumSequenceNumber < m.sequenceNumber))]
    · exact ⟨0, by simp⟩
  · intro h
    simp [SharedSegmentSequence.stashOf, h]
  · intro h
    refine ⟨?_, ?_, ?_, ?_, ?_, ?_⟩
    · simp [SharedSegmentSequence.stashOf, h]
    · simp [SharedSegmentSequence.stashOf, h]
    · simp [SharedSegmentSequence.stashOf, h]
    · simp [SharedSegmentSequence.stashOf, h]
    · intro o ho
      simp [SharedSegmentSequence.stashOf, h, ho]
    · intro hlen
      simp [SharedSegmentSequence.stashOf, h, hlen]

open SharedSegmentSequence MergeTree in
/-- Witness for C1: a direct message (refSeq 4, seq 5) is stashed unchanged;
a gapped message (refSeq 2, seq 5) is stashed with refSeq replaced by 4. -/
theorem C1_history_buffer_append_witness :
    SharedSegmentSequence.stashOf []
        { sequenceNumber := 5, referenceSequenceNumber := 4, minimumSequenceNumber := 0,
          clientId := "a", contents := MergeTree.IMergeTreeOp.group [] }
      = { sequenceNumber := 5, referenceSequenceNumber := 4, minimumSequenceNumber := 0,
          clientId := "a", contents := MergeTree.IMergeTreeOp.group [] }
  ∧ (SharedSegmentSequence.stashOf []
        { sequenceNumber := 5, referenceSequenceNumber := 2, minimumSequenceNumber := 0,
          clientId := "a",
          contents := MergeTree.IMergeTreeOp.group [] }).referenceSequenceNumber
      = 5 - 1 :=
  ⟨(C1_history_buffer_append [] ⟨[], []⟩ _).2.1 (by decide),
   ((C1_history_buffer_append [] ⟨[], []⟩ _).2.2 (by decide)).1⟩

open SharedSegmentSequence MergeTree in
/-- C3: after the stash entry is appended, the GC pass runs iff the buffer
is longer than 20 entries and the entry at index 20 has a sequence number
below the incoming message's `minimumSequenceNumber`; when it runs it drops
exactly the messages before the first one with
`sequenceNumber > minimumSequenceNumber`, and otherwise the buffer is left
as appended. -/
theorem C3_gc_trigger (events : List SequenceDeltaEvent)
    (st : SharedSegmentSequence.SeqState)
    (message : SharedSegmentSequence.ISequencedDocumentMessage) :
    (20 < (st.messagesSinceMSNChange
          ++ [SharedSegmentSequence.stashOf events message]).length
      ∧ ((st.messagesSinceMSNChange
          ++ [SharedSegmentSequence.stashOf events message]).getD 20 default).sequenceNumber
          < message.minimumSequenceNumber →
      (SharedSegmentSequence.processMergeTreeMsg events st message).messagesSinceMSNChange
        = (st.messagesSinceMSNChange
            ++ [SharedSegmentSequence.stashOf events message]).dropWhile
            (fun m => decide (m.sequenceNumber ≤ message.minimumSequenceNumber)))
  ∧ (¬(20 < (st.messagesSinceMSNChange
          ++ [SharedSegmentSequence.stashOf events message]).length
      ∧ ((st.messagesSinceMSNChange
          ++ [SharedSegmentSequence.stashOf events message]).getD 20 default).sequenceNumber
          < message.minimumSequenceNumber) →
      (SharedSegmentSequence.processMergeTreeMsg events st message).messagesSinceMSNChange
        = st.messagesSinceMSNChange ++ [SharedSegmentSequence.stashOf events message]) := by
  constructor
  · intro h
    simp only [SharedSegmentSequence.processMergeTreeMsg]
    rw [if_pos h]
    exact processMin_eq_dropWhile _ _
  · intro h
    simp only [SharedSegmentSequence.processMergeTreeMsg]
    rw [if_neg h]

open SharedSegmentSequence MergeTree in
/-- Witness for C3: with 21 buffered messages of sequence numbers 1..21 and
an incoming direct message with watermark 22, the GC pass runs and compacts
the buffer. -/
theorem C3_gc_trigger_witness :
    (SharedSegmentSequence.processMergeTreeMsg []
        ⟨[], (List.range 21).map (fun i =>
          ({ sequenceNumber := (i : Int) + 1, referenceSequenceNumber := (i : Int),
             minimumSequenceNumber := 0, clientId := "c",
             contents := MergeTree.IMergeTreeOp.group [] } :
            SharedSegmentSequence.ISequencedDocumentMessage))⟩
        { sequenceNumber := 23, referenceSequenceNumber := 22, minimumSequenceNumber := 22,
          clientId := "c",
          contents := MergeTree.IMergeTreeOp.group [] }).messagesSinceMSNChange
      = ((List.range 21).map (fun i =>
          ({ sequenceNumber := (i : Int) + 1, referenceSequenceNumber := (i : Int),
             minimumSequenceNumber := 0, clientId := "c",
             contents := MergeTree.IMergeTreeOp.group [] } :
            SharedSegmentSequence.ISequencedDocumentMessage))
          ++ [SharedSegmentSequence.stashOf []
            { sequenceNumber := 23, referenceSequenceNumber := 22,
              minimumSequenceNumber := 22, clientId := "c",
              contents := MergeTree.IMergeTreeOp.group [] }]).dropWhile
          (fun m => decide (m.sequenceNumber ≤ 22)) :=
  (C3_gc_trigger [] ⟨[], (List.range 21).map (fun i =>
      ({ sequenceNumber := (i : Int) + 1, referenceSequenceNumber := (i : Int),
         minimumSequenceNumber := 0, clientId := "c",
         contents := MergeTree.IMergeTreeOp.group [] } :
        SharedSegmentSequence.ISequencedDocumentMessage))⟩
    { sequenceNumber := 23, referenceSequenceNumber := 22, minimumSequenceNumber := 22,
      clientId := "c", contents := MergeTree.IMergeTreeOp.group [] }).1 (by decide)

open SharedSegmentSequence MergeTree in
/-- C4: on a buffer with strictly increasing sequence numbers, after any
`processMinSequenceNumberChanged(minSeq)` every remaining buffered message
has `sequenceNumber > minSeq`; and the lower-bound invariant on buffered
sequence numbers is preserved by `processMergeTreeMsg`, the one operation
that grows the buffer. -/
theorem C4_buffer_invariant :
    (∀ (msgs : List SharedSegmentSequence.ISequencedDocumentMessage) (minSeq : Int),
        List.Pairwise (fun a b => a.sequenceNumber < b.sequenceNumber) msgs →
        ∀ m ∈ SharedSegmentSequence.processMinSequenceNumberChanged msgs minSeq,
          minSeq < m.sequenceNumber)
  ∧ (∀ (w : Int) (events : List SequenceDeltaEvent)
        (st : SharedSegmentSequence.SeqState)
        (message : SharedSegmentSequence.ISequencedDocumentMessage),
        (∀ m ∈ st.messagesSinceMSNChange, w < m.sequenceNumber) →
        w < message.sequenceNumber →
        ∀ m ∈ (SharedSegmentSequence.processMergeTreeMsg events st
            message).messagesSinceMSNChange,
          w < m.sequenceNumber) := by
  constructor
  · intro msgs minSeq hp m hm
    rw [processMin_eq_dropWhile] at hm
    exact mem_dropWhile_lt minSeq msgs hp m hm
  · intro w events st message hbuf hw m hm
    have hball : ∀ x ∈ st.messagesSinceMSNChange
        ++ [SharedSegmentSequence.stashOf events message], w < x.sequenceNumber := by
      intro x hx
      rcases List.mem_append.mp hx with hx1 | hx1
      · exact hbuf x hx1
      · rcases List.mem_singleton.mp hx1 with rfl
        rw [stashOf_sequenceNumber]
        exact hw
    simp only [SharedSegmentSequence.processMergeTreeMsg] at hm
    split at hm
    · exact hball m (mem_of_mem_processMin _ _ m hm)
    · exact hball m hm

open SharedSegmentSequence MergeTree in
/-- Witness for C4: the GC pass on the sorted two-message buffer
`[seq 1, seq 2]` with watermark 1 keeps only messages above the watermark,
and the push of a direct message onto an empty buffer keeps the lower bound
0. -/
theorem C4_buffer_invariant_witness :
    (1 : Int)
      < ({ sequenceNumber := 2, referenceSequenceNumber := 1, minimumSequenceNumber := 0,
           clientId := "b",
           contents := MergeTree.IMergeTreeOp.group [] } :
          SharedSegmentSequence.ISequencedDocumentMessage).sequenceNumber
  ∧ (0 : Int)
      < (SharedSegmentSequence.stashOf []
          { sequenceNumber := 5, referenceSequenceNumber := 4, minimumSequenceNumber := 0,
            clientId := "a",
            contents := MergeTree.IMergeTreeOp.group [] }).sequenceNumber :=
  ⟨C4_buffer_invariant.1
    [{ sequenceNumber := 1, referenceSequenceNumber := 0, minimumSequenceNumber := 0,
       clientId := "b", contents := MergeTree.IMergeTreeOp.group [] },
     { sequenceNumber := 2, referenceSequenceNumber := 1, minimumSequenceNumber := 0,
       clientId := "b", contents := MergeTree.IMergeTreeOp.group [] }] 1
    (by decide)
    { sequenceNumber := 2, referenceSequenceNumber := 1, minimumSequenceNumber := 0,
      clientId := "b", contents := MergeTree.IMergeTreeOp.group [] }
    (by
      rw [show SharedSegmentSequence.processMinSequenceNumberChanged
        [{ sequenceNumber := 1, referenceSequenceNumber := 0, minimumSequenceNumber := 0,
           clientId := "b", contents := MergeTree.IMergeTreeOp.group [] },
         { sequenceNumber := 2, referenceSequenceNumber := 1, minimumSequenceNumber := 0,
           clientId := "b", contents := MergeTree.IMergeTreeOp.group [] }] 1
        = [{ sequenceNumber := 2, referenceSequenceNumber := 1, minimumSequenceNumber := 0,
             clientId := "b", contents := MergeTree.IMergeTreeOp.group [] }] from rfl]
      exact List.Mem.head _),
   C4_buffer_invariant.2 0 [] ⟨[], []⟩
    { sequenceNumber := 5, referenceSequenceNumber := 4, minimumSequenceNumber := 0,
      clientId := "a", contents := MergeTree.IMergeTreeOp.group [] }
    (by simp) (by decide)
    (SharedSegmentSequence.stashOf []
      { sequenceNumber := 5, referenceSequenceNumber := 4, minimumSequenceNumber := 0,
        clientId := "a", contents := MergeTree.IMergeTreeOp.group [] })
    (by
      rw [show (SharedSegmentSequence.processMergeTreeMsg [] ⟨[], []⟩
        { sequenceNumber := 5, referenceSequenceNumber := 4, minimumSequenceNumber := 0,
          clientId := "a",
          contents := MergeTree.IMergeTreeOp.group [] }).messagesSinceMSNChange
        = [SharedSegmentSequence.stashOf []
            { sequenceNumber := 5, referenceSequenceNumber := 4, minimumSequenceNumber := 0,
              clientId := "a", contents := MergeTree.IMergeTreeOp.group [] }] from rfl]
      exact List.Mem.head _)⟩

open SharedSegmentSequence MergeTree in
/-- C9: for a message needing transformation, the original envelope is the
one applied to the merge-tree client and is kept unmodified, while the
history buffer receives a separately constructed copy whose
`referenceSequenceNumber` (necessarily different from the original's) is
`sequenceNumber - 1` and whose `contents` are the re-expressed captured
ops. -/
theorem C9_original_message_immutable (events : List SequenceDeltaEvent)
    (st : SharedSegmentSequence.SeqState)
    (message : SharedSegmentSequence.ISequencedDocumentMessage)
    (h : message.referenceSequenceNumber ≠ message.sequenceNumber - 1) :
    (SharedSegmentSequence.processMergeTreeMsg events st message).applied
        = st.applied ++ [message]
  ∧ (SharedSegmentSequence.stashOf events message).referenceSequenceNumber
      ≠ message.referenceSequenceNumber
  ∧ (SharedSegmentSequence.stashOf events message).referenceSequenceNumber
      = message.sequenceNumber - 1
  ∧ (SharedSegmentSequence.stashOf events message).contents
      = (if (SharedSegmentSequence.transformedOps events).length ≠ 1
         then MergeTree.createGroupOp (SharedSegmentSequence.transformedOps events)
         else (SharedSegmentSequence.transformedOps events).headI) := by
  refine ⟨?_, ?_, ?_, ?_⟩
  · simp only [SharedSegmentSequence.processMergeTreeMsg]
    split <;> rfl
  · simp only [SharedSegmentSequence.stashOf]
    rw [if_pos h]
    exact Ne.symm h
  · simp only [SharedSegmentSequence.stashOf]
    rw [if_pos h]
  · simp only [SharedSegmentSequence.stashOf]
    rw [if_pos h]

open SharedSegmentSequence MergeTree in
/-- Witness for C9: a gapped message (refSeq 2, seq 5) is applied to the
client as the unmodified original. -/
theorem C9_original_message_immutable_witness :
    (SharedSegmentSequence.processMergeTreeMsg [] ⟨[], []⟩
        { sequenceNumber := 5, referenceSequenceNumber := 2, minimumSequenceNumber := 0,
          clientId := "a", contents := MergeTree.IMergeTreeOp.group [] }).applied
      = [] ++
        [{ sequenceNumber := 5, referenceSequenceNumber := 2, minimumSequenceNumber := 0,
           clientId := "a", contents := MergeTree.IMergeTreeOp.group [] }] :=
  (C9_original_message_immutable [] ⟨[], []⟩ _ (by decide)).1

end Fluid
